import Mathlib

/-!
Verification of the KeyMesh daemon against its natural-language
specification.  Each section shallowly embeds one Python module of the
repository (`keymesh.diff`, `keymesh.net.framing`,
`keymesh.transfer.protocol`, `keymesh.net.client`,
`keymesh.net.conn_state`, `keymesh.utils.pathing`, `keymesh.hash_policy`)
as executable Lean definitions, and proves or refutes the claims drawn
from the specification.  Digests (SHA-256, xxh64) are not re-implemented:
a hashlib digest is a function of the exact byte stream passed to its
`update` calls, so hashers are modelled by that accumulated stream and an
abstract hex-digest function over it.
-/

namespace KeyMesh

/-! ## keymesh.diff -/

/-- One manifest entry as consumed by `keymesh.diff`: the `path`, the
`hash` field (`""` models a missing or empty hash, both falsy in the
source) and the integer `mtime` (`int(entry.get("mtime", 0))`). -/
structure ManifestEntry where
  path : String
  hash : String
  mtime : Int
deriving DecidableEq, Repr

/-- Keys of the dict built by `_entry_map` (diff.py line 19): paths of the
entries whose `path` is truthy, duplicates removed (dict keys are unique;
only the key set matters downstream because every path list is sorted). -/
def entryKeys (entries : List ManifestEntry) : List String :=
  ((entries.filter (fun e => e.path != "")).map (fun e => e.path)).eraseDups

/-- Lookup in the `_entry_map` dict: the comprehension keeps the last
entry for a duplicated path. -/
def entryLookup (entries : List ManifestEntry) (p : String) : Option ManifestEntry :=
  (entries.filter (fun e => e.path != "" && e.path == p)).getLast?

/-- Insertion into a list sorted by the string order (models `sorted`). -/
def insertSorted (s : String) : List String → List String
  | [] => [s]
  | t :: ts => if s ≤ t then s :: t :: ts else t :: insertSorted s ts

/-- Python's `sorted` on a list of path strings. -/
def sortPaths : List String → List String
  | [] => []
  | s :: ss => insertSorted s (sortPaths ss)

/-- The per-path decision of `compare_manifests` (diff.py lines 43-55):
two hash tests, then fall-through to the mtime comparison.  Note the
source places no `continue` on the path where both hashes are present and
equal, so that case also reaches the mtime comparison. -/
def entryModified (localEntry remoteEntry : ManifestEntry) : Bool :=
  if localEntry.hash != "" && remoteEntry.hash != "" && localEntry.hash != remoteEntry.hash then
    true
  else if (localEntry.hash != "" || remoteEntry.hash != "") && localEntry.hash != remoteEntry.hash then
    true
  else
    decide (localEntry.mtime > remoteEntry.mtime)

/-- The `summary` block of the diff result. -/
structure DiffSummary where
  added : Nat
  modified : Nat
  deleted : Nat
  delta : Nat
deriving DecidableEq, Repr

/-- Result dictionary of `compare_manifests`. -/
structure DiffResult where
  added : List String
  modified : List String
  deleted : List String
  summary : DiffSummary
deriving DecidableEq, Repr

/-- diff.compare_manifests (diff.py lines 22-67). -/
def compare_manifests (localEntries remoteEntries : List ManifestEntry) : DiffResult :=
  let localKeys := entryKeys localEntries
  let remoteKeys := entryKeys remoteEntries
  let addedPaths := sortPaths (localKeys.filter (fun p => !(remoteKeys.contains p)))
  let deletedPaths := sortPaths (remoteKeys.filter (fun p => !(localKeys.contains p)))
  let commonPaths := sortPaths (localKeys.filter (fun p => remoteKeys.contains p))
  let modifiedPaths := commonPaths.filter (fun p =>
    match entryLookup localEntries p, entryLookup remoteEntries p with
    | some le, some re => entryModified le re
    | _, _ => false)
  { added := addedPaths
    modified := modifiedPaths
    deleted := deletedPaths
    summary :=
      { added := addedPaths.length
        modified := modifiedPaths.length
        deleted := deletedPaths.length
        delta := addedPaths.length + modifiedPaths.length + deletedPaths.length } }

/-- Local manifest of specification scenario 5: `a.txt` and `b.txt`. -/
def scenarioLocal : List ManifestEntry :=
  [⟨"a.txt", "sha256:h1", 100⟩, ⟨"b.txt", "sha256:h2", 100⟩]

/-- Remote manifest of specification scenario 5: `a.txt` (same hash,
older mtime) and `c.txt`. -/
def scenarioRemote : List ManifestEntry :=
  [⟨"a.txt", "sha256:h1", 50⟩, ⟨"c.txt", "sha256:h3", 200⟩]

/-- C1: the spec demands that a path whose two entries carry equal
non-empty hashes is never reported as modified, regardless of mtime.  The
code violates this: on the spec's own scenario-5 manifests (`a.txt` with
identical hashes, local mtime 100 vs remote 50) `compare_manifests`
reports `a.txt` as modified, because the equal-hash case falls through to
the `local.mtime > remote.mtime` comparison. -/
theorem compare_manifests_equal_hash_mtime_modified :
    (compare_manifests scenarioLocal scenarioRemote).modified = ["a.txt"]
  ∧ (compare_manifests scenarioLocal scenarioRemote).added = ["b.txt"]
  ∧ (compare_manifests scenarioLocal scenarioRemote).deleted = ["c.txt"] := by
  refine ⟨?_, ?_, ?_⟩ <;> rfl

/-- Single-entry manifest with a blank hash and mtime 2. -/
def blankNewer : List ManifestEntry := [⟨"p", "", 2⟩]

/-- Single-entry manifest with a blank hash and mtime 1. -/
def blankOlder : List ManifestEntry := [⟨"p", "", 1⟩]

/-- C5 counterexample: the modified sets of `compare_manifests (A, B)` and
`compare_manifests (B, A)` are not equal as sets.  With blank hashes the
mtime tie-break is directional: `p` is modified in the A-vs-B direction
(mtime 2 > 1) but not in the B-vs-A direction. -/
theorem compare_manifests_modified_asymmetric_cex :
    "p" ∈ (compare_manifests blankNewer blankOlder).modified
  ∧ "p" ∉ (compare_manifests blankOlder blankNewer).modified := by
  exact ⟨by decide, by decide⟩

/-- C5 amended: the label-swap symmetry holds for `added` and `deleted`:
`compare_manifests(A, B).added = compare_manifests(B, A).deleted` and
vice versa, for all pairs of manifests.  (The modified sets are not
symmetric; see the counterexample.) -/
theorem compare_manifests_added_deleted_swap (a b : List ManifestEntry) :
    (compare_manifests a b).added = (compare_manifests b a).deleted
  ∧ (compare_manifests a b).deleted = (compare_manifests b a).added :=
  ⟨rfl, rfl⟩

/-! ## keymesh.net.framing -/

/-- The 8 MiB frame cap (`recv_json` default `max_size`). -/
def MAX_FRAME_SIZE : Nat := 8 * 1024 * 1024

/-- `struct.pack(">I", n)`: a 4-byte unsigned big-endian length header. -/
def pack32 (n : Nat) : List Nat :=
  [n / 2 ^ 24 % 256, n / 2 ^ 16 % 256, n / 2 ^ 8 % 256, n % 256]

/-- `struct.unpack(">I", header)` on a 4-byte header. -/
def unpack32 (bytes : List Nat) : Nat :=
  match bytes with
  | [a, b, c, d] => ((a * 256 + b) * 256 + c) * 256 + d
  | _ => 0

theorem unpack32_pack32 (n : Nat) (h : n < 2 ^ 32) : unpack32 (pack32 n) = n := by
  simp only [pack32, unpack32]
  omega

theorem pack32_length (n : Nat) : (pack32 n).length = 4 := rfl

/-- JSON values, as produced by the stdlib decoder.  The codec itself
(`json.dumps` with separators `(",", ":")` / `json.loads`) is standard
library code, so the framing theorems take the encoder and decoder as
parameters together with the round-trip fact they guarantee. -/
inductive Json where
  | null : Json
  | bool (b : Bool) : Json
  | num (n : Int) : Json
  | str (s : String) : Json
  | arr (items : List Json) : Json
  | obj (fields : List (String × Json)) : Json

/-- `isinstance(obj, dict)`. -/
def Json.isObj : Json → Bool
  | .obj _ => true
  | _ => false

/-- framing.send_json (framing.py lines 15-29): serialize, then write the
4-byte big-endian length header followed by the body. -/
def send_json (encode : Json → List Nat) (o : Json) : List Nat :=
  pack32 (encode o).length ++ encode o

/-- framing.recv_json (framing.py lines 32-62) over a byte stream: read
the header, reject a zero or oversized length, read the body, decode it,
and require a JSON object.  Returns the decoded object and the unread
remainder of the stream. -/
def recv_json (decode : List Nat → Option Json) (maxSize : Nat) (stream : List Nat) :
    Except String (Json × List Nat) :=
  if stream.length < 4 then
    .error "unexpected EOF while reading frame length"
  else
    let length := unpack32 (stream.take 4)
    let rest := stream.drop 4
    if length = 0 ∨ length > maxSize then
      .error "invalid frame length"
    else if rest.length < length then
      .error "unexpected EOF while reading frame payload"
    else
      match decode (rest.take length) with
      | none => .error "invalid JSON payload"
      | some v =>
        if v.isObj then .ok (v, rest.drop length)
        else .error "frame payload must be an object"

/-- C6: a dict whose serialization is non-empty and at most 8 MiB
round-trips through `send_json` / `recv_json` (any remaining stream bytes
are untouched), and `recv_json` rejects any frame whose declared length
is 0 or exceeds 8 MiB as a ProtocolError. -/
theorem frame_roundtrip_and_length_check
    (encode : Json → List Nat) (decode : List Nat → Option Json)
    (fields : List (String × Json)) (rest : List Nat) (l : Nat) (tail : List Nat)
    (hinv : decode (encode (Json.obj fields)) = some (Json.obj fields))
    (hpos : 0 < (encode (Json.obj fields)).length)
    (hmax : (encode (Json.obj fields)).length ≤ MAX_FRAME_SIZE)
    (hl : l < 2 ^ 32) (hbad : l = 0 ∨ l > MAX_FRAME_SIZE) :
    recv_json decode MAX_FRAME_SIZE (send_json encode (Json.obj fields) ++ rest)
      = .ok (Json.obj fields, rest)
  ∧ recv_json decode MAX_FRAME_SIZE (pack32 l ++ tail) = .error "invalid frame length" := by
  constructor
  · unfold send_json recv_json
    have hlen4 : (pack32 (encode (Json.obj fields)).length).length = 4 := pack32_length _
    have hsz : (encode (Json.obj fields)).length < 2 ^ 32 := by
      have : MAX_FRAME_SIZE < 2 ^ 32 := by decide
      omega
    rw [List.append_assoc]
    rw [List.take_left' hlen4, List.drop_left' hlen4]
    rw [unpack32_pack32 _ hsz]
    have hstream : ¬ ((pack32 (encode (Json.obj fields)).length).length
        + (encode (Json.obj fields) ++ rest).length < 4) := by
      rw [hlen4]; omega
    rw [List.length_append]
    simp only [hstream, if_false]
    have hnotbad : ¬ ((encode (Json.obj fields)).length = 0
        ∨ (encode (Json.obj fields)).length > MAX_FRAME_SIZE) := by
      push_neg
      exact ⟨Nat.pos_iff_ne_zero.mp hpos, hmax⟩
    simp only [hnotbad, if_false]
    have hnoteof : ¬ ((encode (Json.obj fields) ++ rest).length
        < (encode (Json.obj fields)).length) := by
      rw [List.length_append]; omega
    simp only [hnoteof, if_false]
    rw [List.take_left' rfl, List.drop_left' rfl, hinv]
    rfl
  · unfold recv_json
    have hlen4 : (pack32 l).length = 4 := pack32_length _
    have hstream : ¬ ((pack32 l ++ tail).length < 4) := by
      rw [List.length_append, hlen4]; omega
    simp only [hstream, if_false]
    rw [List.take_left' hlen4, unpack32_pack32 _ hl]
    simp only [hbad, if_true]

/-- Toy serializer used to instantiate the framing theorem: the empty
dict becomes the two bytes of "\x7b\x7d". -/
def toyEncode : Json → List Nat := fun _ => [123, 125]

/-- Toy decoder matching `toyEncode` on the empty dict. -/
def toyDecode : List Nat → Option Json := fun bs =>
  if bs = [123, 125] then some (Json.obj []) else none

/-- Witness for C6: the toy codec and the empty dict satisfy every
hypothesis, the frame round-trips, and a zero-length header is
rejected. -/
theorem frame_roundtrip_and_length_check_witness :
    recv_json toyDecode MAX_FRAME_SIZE (send_json toyEncode (Json.obj []) ++ [9])
      = .ok (Json.obj [], [9])
  ∧ recv_json toyDecode MAX_FRAME_SIZE (pack32 0 ++ [1, 2, 3]) = .error "invalid frame length" :=
  frame_roundtrip_and_length_check toyEncode toyDecode [] [9] 0 [1, 2, 3]
    (by rfl) (by decide) (by decide) (by decide) (Or.inl rfl)

/-! ## keymesh.transfer.protocol and keymesh.transfer.chunker

Digest abstraction: a hashlib hasher is determined by the concatenation
of the byte strings passed to its `update` calls, so a hasher is modelled
as that accumulated stream and `sha256(...).hexdigest()` as an abstract
function `H : List Nat → String` applied to the stream. -/

/-- Transfer protocol frames.  A CHUNK header is immediately followed by
raw payload bytes on the wire; here the `payload` field carries those
following bytes.  `fileEndReply` is the receiver's final
`{"type": "FILE_END", "status": ..., "bytes": ...}` confirmation. -/
inductive TFrame where
  | fileReq (file share : String) (size : Nat) (mode : String) (resumeOffset : Nat) (hash : String)
  | fileMeta (status : String) (resumeOffset : Nat)
  | chunk (file share : String) (chunkId : Nat) (offset : Nat) (size : Nat) (hash : String)
      (payload : List Nat)
  | chunkAck (chunkId : Nat) (status : String)
  | fileEnd (file share : String) (hash : String) (bytes : Nat)
  | fileEndReply (status : String) (bytes : Nat)
deriving DecidableEq, Repr

/-- Transfer-layer exceptions. -/
inductive TransferErr where
  | protocolError (msg : String)
  | checksumError (msg : String)
deriving DecidableEq, Repr

/-- Python `str.startswith`, at the character-list level. -/
def strStartsWith (s pre : String) : Bool := pre.data.isPrefixOf s.data

/-- Drop the first `n` characters of a string (used to model taking the
part after the `"sha256:"` prefix, as `partition(":")` does). -/
def strDrop (s : String) (n : Nat) : String := String.mk (s.data.drop n)

/-- chunker.verify_chunk: require the "sha256:" prefix and compare the
digest of the payload with the hex part after the first colon. -/
def verify_chunk (H : List Nat → String) (data : List Nat) (expectedHash : String) : Bool :=
  if !(strStartsWith expectedHash "sha256:") then false
  else H data == strDrop expectedHash 7

/-- File write at a position: bytes before `pos` are kept, the data
overwrites from `pos` on (zero padding in the unreachable sparse case). -/
def writeAt (content : List Nat) (pos : Nat) (data : List Nat) : List Nat :=
  content.take pos ++ List.replicate (pos - content.length) 0 ++ data
    ++ content.drop (pos + data.length)

/-- Receiver state during `receive_file`: file position, file bytes, the
accumulated whole-hash input stream, counters, and the frames written so
far (in order). -/
structure RecvState where
  pos : Nat
  fileBytes : List Nat
  hashStream : List Nat
  receivedBytes : Nat
  receivedChunks : Nat
  sent : List TFrame
deriving DecidableEq, Repr

/-- Initial state used for the early-error paths of `receive_file`. -/
def emptyRecvState : RecvState :=
  { pos := 0, fileBytes := [], hashStream := [], receivedBytes := 0,
    receivedChunks := 0, sent := [] }

/-- The per-frame loop of protocol.receive_file (protocol.py lines
318-372): FILE_END verifies the running whole hash and confirms; a CHUNK
frame has its payload read, hash-verified, written at the current
position and acknowledged — the source never compares the incoming
`chunk` id against the previously accepted one.  An exhausted stream
models the FramingProtocolError of a closed connection. -/
def receiveLoop (H : List Nat → String) (st : RecvState) :
    List TFrame → RecvState × Except TransferErr (Nat × Nat)
  | [] => (st, .error (.protocolError "failed to receive frame"))
  | f :: rest =>
    match f with
    | .fileEnd _ _ claimedHash _ =>
      let computed := "sha256:" ++ H st.hashStream
      if computed != claimedHash then
        (st, .error (.checksumError "final hash mismatch"))
      else
        ({ st with sent := st.sent ++ [TFrame.fileEndReply "ok" st.receivedBytes] },
         .ok (st.receivedBytes, st.receivedChunks))
    | .chunk _ _ chunkId _ size hash payload =>
      if payload.length < size then
        (st, .error (.protocolError "unexpected EOF while reading chunk payload"))
      else
        let data := payload.take size
        if !(verify_chunk H data hash) then
          (st, .error (.checksumError "chunk hash mismatch"))
        else
          receiveLoop H
            { pos := st.pos + data.length
              fileBytes := writeAt st.fileBytes st.pos data
              hashStream := st.hashStream ++ data
              receivedBytes := st.receivedBytes + data.length
              receivedChunks := st.receivedChunks + 1
              sent := st.sent ++ [TFrame.chunkAck chunkId "ok"] } rest
    | _ => (st, .error (.protocolError "unexpected frame type"))

/-- protocol.receive_file (protocol.py lines 233-380).  `resumeOffset` is
the caller-supplied `resume_offset` argument, `fileExists` and
`initialFile` describe the `.part` file (opening a fresh file with "wb"
truncates it), and `frames` are the frames following FILE_REQ.  The
FILE_META confirmation is sent (lines 284-291) before the on-disk length
is inspected; only afterwards (lines 295-313) is `resume_offset` clamped
to the actual byte count. -/
def receive_file (H : List Nat → String) (fileReq : TFrame) (resumeOffset : Nat)
    (fileExists : Bool) (initialFile : List Nat) (frames : List TFrame)
    (expectedMode : String) : RecvState × Except TransferErr (Nat × Nat) :=
  match fileReq with
  | .fileReq _ _ _ mode _ _ =>
    if mode != expectedMode then
      (emptyRecvState, .error (.protocolError "unsupported transfer mode"))
    else
      let metaFrame := TFrame.fileMeta "ok" resumeOffset
      let content := if fileExists then initialFile else []
      let buffered := if resumeOffset ≠ 0 ∧ fileExists then content.take resumeOffset else []
      let existingBytes := buffered.length
      let clamped :=
        if resumeOffset ≠ 0 ∧ existingBytes < resumeOffset then existingBytes else resumeOffset
      receiveLoop H
        { pos := clamped, fileBytes := content, hashStream := buffered,
          receivedBytes := clamped, receivedChunks := 0, sent := [metaFrame] }
        frames
  | _ => (emptyRecvState, .error (.protocolError "unexpected frame"))

/-- C2: the receiver is supposed to clamp `resume_offset` to the actual
number of bytes on disk and reply `FILE_META resume_offset = clamped`.
The code sends the FILE_META reply before reading the partial file, so
with a requested offset of 10 over a 4-byte `.part` file the reply
carries 10, while the receiver itself then continues from the clamped
offset 4 (`received_bytes` starts at 4). -/
theorem receive_file_meta_reply_unclamped (H : List Nat → String) :
    ((receive_file H (TFrame.fileReq "a.bin" "docs" 20 "push" 10 "sha256:x") 10 true
        [1, 2, 3, 4] [] "push").1.sent.head? = some (TFrame.fileMeta "ok" 10))
  ∧ ((receive_file H (TFrame.fileReq "a.bin" "docs" 20 "push" 10 "sha256:x") 10 true
        [1, 2, 3, 4] [] "push").1.receivedBytes = 4)
  ∧ (4 : Nat) ≠ 10 := by
  refine ⟨?_, ?_, by decide⟩ <;> rfl

/-- Concrete stand-in hex-digest function used to evaluate the embedded
protocol at specific inputs. -/
def toyDigest (l : List Nat) : String :=
  l.foldl (fun acc b => acc ++ toString b) "d"

/-- A wire with CHUNK ids 5 then 3 — neither successive nor increasing —
each with a correct payload digest, then a FILE_END with the digest of
everything received. -/
def outOfOrderFrames : List TFrame :=
  [ TFrame.chunk "a.bin" "docs" 5 0 2 ("sha256:" ++ toyDigest [7, 8]) [7, 8],
    TFrame.chunk "a.bin" "docs" 3 2 1 ("sha256:" ++ toyDigest [9]) [9],
    TFrame.fileEnd "a.bin" "docs" ("sha256:" ++ toyDigest [7, 8, 9]) 3 ]

/-- C3: the spec requires the receiver to reject an out-of-order CHUNK id
as ProtocolError, but `receive_file` keeps no record of the previous
chunk id: it accepts and acknowledges the CHUNK frames with ids 5 and 3,
writes both payloads, and completes the transfer successfully. -/
theorem receive_file_accepts_out_of_order_chunks :
    (receive_file toyDigest (TFrame.fileReq "a.bin" "docs" 3 "push" 0 "h") 0 false []
        outOfOrderFrames "push").2 = .ok (3, 2)
  ∧ (receive_file toyDigest (TFrame.fileReq "a.bin" "docs" 3 "push" 0 "h") 0 false []
        outOfOrderFrames "push").1.sent
      = [TFrame.fileMeta "ok" 0, TFrame.chunkAck 5 "ok", TFrame.chunkAck 3 "ok",
         TFrame.fileEndReply "ok" 3]
  ∧ (receive_file toyDigest (TFrame.fileReq "a.bin" "docs" 3 "push" 0 "h") 0 false []
        outOfOrderFrames "push").1.fileBytes = [7, 8, 9] := by
  refine ⟨by rfl, by decide, by decide⟩

/-- The fields of an acknowledgement frame inspected by send_file's retry
loop: `ack.get("type")`, `ack.get("chunk")` and `ack.get("status")`.  A
FramingProtocolError on receive is replaced by a frame of type "ERROR"
(protocol.py lines 177-178). -/
structure AckMsg where
  type : String
  chunk : Option Nat
  status : Option String
deriving DecidableEq, Repr

/-- The ack produced when receiving fails. -/
def errorAck : AckMsg := { type := "ERROR", chunk := none, status := none }

/-- Outcome of the per-chunk loop: how many times the chunk was
transmitted, the backoff delay computed before each re-transmission, and
whether the loop ended in success or in ProtocolError. -/
structure ChunkSendResult where
  attempts : Nat
  delays : List ℚ
  success : Bool
deriving DecidableEq, Repr

/-- `backoff[min(attempt - 1, len(backoff) - 1)] if backoff else 0`
(protocol.py lines 186 and 195), where `attempt` is the just-incremented
failure count. -/
def retryDelay (backoff : List ℚ) (attempt : Nat) : ℚ :=
  if backoff = [] then 0 else backoff.getD (min (attempt - 1) (backoff.length - 1)) 0

/-- Bookkeeping for one failed transmission followed by a retry: one more
attempt, with the computed delay slept before it. -/
def retryStep (d : ℚ) (r : ChunkSendResult) : ChunkSendResult :=
  { attempts := r.attempts + 1, delays := d :: r.delays, success := r.success }

/-- The `while True` retry loop around one chunk (protocol.py lines
161-200): transmit, read the next ack (an exhausted list stands for a
closed stream, which yields the "ERROR" frame forever), and on a type/id
mismatch or a non-ok status increment `attempt`, raising ProtocolError as
soon as `attempt >= max_retries`, otherwise sleeping the computed backoff
and retrying. -/
def chunkRetryLoop (maxRetries : Nat) (backoff : List ℚ) (chunkIndex : Nat)
    (acks : List AckMsg) (attempt : Nat) : ChunkSendResult :=
  if (acks.headD errorAck).type = "CHUNK_ACK" ∧ (acks.headD errorAck).chunk = some chunkIndex then
    if (acks.headD errorAck).status = some "ok" then
      { attempts := 1, delays := [], success := true }
    else if hend : attempt + 1 ≥ maxRetries then
      { attempts := 1, delays := [], success := false }
    else
      retryStep (retryDelay backoff (attempt + 1))
        (chunkRetryLoop maxRetries backoff chunkIndex acks.tail (attempt + 1))
  else if hend : attempt + 1 ≥ maxRetries then
    { attempts := 1, delays := [], success := false }
  else
    retryStep (retryDelay backoff (attempt + 1))
      (chunkRetryLoop maxRetries backoff chunkIndex acks.tail (attempt + 1))
termination_by maxRetries - attempt
decreasing_by all_goals omega

/-- An acknowledgement that does not complete chunk `chunkIndex`: either
a type/id mismatch or a non-ok status. -/
@[reducible] def ackFails (chunkIndex : Nat) (a : AckMsg) : Prop :=
  ¬ (a.type = "CHUNK_ACK" ∧ a.chunk = some chunkIndex ∧ a.status = some "ok")

lemma errorAck_fails (chunkIndex : Nat) : ackFails chunkIndex errorAck := by
  intro h
  exact absurd h.1 (by decide)

/-- From any failure count `attempt` with `maxRetries = attempt + n`
attempts left (n > 0), a run in which every available ack fails performs
exactly `n` further transmissions, computes `retryDelay` at the failure
counts `attempt+1, …, attempt+n-1`, and ends in ProtocolError. -/
lemma chunkRetryLoop_all_fail_aux (backoff : List ℚ) (chunkIndex : Nat) :
    ∀ (n maxRetries : Nat) (acks : List AckMsg) (attempt : Nat),
      maxRetries = attempt + n → 0 < n →
      (∀ a ∈ acks, ackFails chunkIndex a) →
      chunkRetryLoop maxRetries backoff chunkIndex acks attempt
        = { attempts := n,
            delays := (List.range' (attempt + 1) (n - 1)).map (retryDelay backoff),
            success := false } := by
  intro n
  induction n with
  | zero =>
    intro maxRetries acks attempt _ h0 _
    omega
  | succ n ih =>
    intro maxRetries acks attempt hmr _ hfail
    have hfirst : ackFails chunkIndex (acks.headD errorAck) := by
      cases acks with
      | nil => exact errorAck_fails chunkIndex
      | cons a rest => exact hfail a (List.mem_cons_self a rest)
    have hrest : ∀ a ∈ acks.tail, ackFails chunkIndex a := by
      cases acks with
      | nil => intro x hx; cases hx
      | cons a rest => intro x hx; exact hfail x (List.mem_cons_of_mem a hx)
    have hcommon :
        (if _ : attempt + 1 ≥ maxRetries then
            ({ attempts := 1, delays := [], success := false } : ChunkSendResult)
          else
            retryStep (retryDelay backoff (attempt + 1))
              (chunkRetryLoop maxRetries backoff chunkIndex acks.tail (attempt + 1)))
          = { attempts := n + 1,
              delays := (List.range' (attempt + 1) n).map (retryDelay backoff),
              success := false } := by
      by_cases hend : attempt + 1 ≥ maxRetries
      · have hn0 : n = 0 := by omega
        subst hn0
        rw [dif_pos hend]
        rfl
      · rw [dif_neg hend]
        have hn1 : 0 < n := by omega
        rw [ih maxRetries acks.tail (attempt + 1) (by omega) hn1 hrest]
        have hlist : List.range' (attempt + 1) n
            = (attempt + 1) :: List.range' (attempt + 1 + 1) (n - 1) := by
          conv_lhs => rw [show n = (n - 1) + 1 from by omega]
          rw [List.range'_succ]
        rw [hlist]
        simp [retryStep]
    rw [chunkRetryLoop]
    by_cases hmatch : (acks.headD errorAck).type = "CHUNK_ACK"
        ∧ (acks.headD errorAck).chunk = some chunkIndex
    · rw [if_pos hmatch]
      have hstat : ¬ (acks.headD errorAck).status = some "ok" := by
        intro hs
        exact hfirst ⟨hmatch.1, hmatch.2, hs⟩
      rw [if_neg hstat]
      exact hcommon
    · rw [if_neg hmatch]
      exact hcommon

/-- C4 counterexample: with `max_retries = 1` and every acknowledgement
failing, the chunk is transmitted exactly once and ProtocolError is
raised immediately — zero retries — whereas the claim demands up to
`max_retries + 1 = 2` transmissions before the error. -/
theorem chunk_retry_total_attempts_cex :
    (chunkRetryLoop 1 [] 0 [errorAck, errorAck] 0).attempts = 1
  ∧ (chunkRetryLoop 1 [] 0 [errorAck, errorAck] 0).success = false
  ∧ (1 : Nat) ≠ 1 + 1 := by
  have h := chunkRetryLoop_all_fail_aux [] 0 1 1 [errorAck, errorAck] 0 (by omega) (by omega)
    (by decide)
  rw [h]
  exact ⟨rfl, rfl, by decide⟩

/-- C4 amended: when every acknowledgement for a chunk is a mismatch or
an error, the chunk is retried up to `max_retries - 1` times — so up to
`max_retries` total transmissions, with
`retry_backoff[min(attempt - 1, len - 1)]` (0 when the backoff list is
empty) computed before the attempt numbered `attempt + 1` — and
ProtocolError is raised exactly when the `max_retries`-th transmission
has failed. -/
theorem chunk_retry_exhaustion (maxRetries : Nat) (backoff : List ℚ) (chunkIndex : Nat)
    (acks : List AckMsg) (h1 : 1 ≤ maxRetries)
    (hfail : ∀ a ∈ acks, ackFails chunkIndex a) :
    chunkRetryLoop maxRetries backoff chunkIndex acks 0
      = { attempts := maxRetries,
          delays := (List.range' 1 (maxRetries - 1)).map (retryDelay backoff),
          success := false } :=
  chunkRetryLoop_all_fail_aux backoff chunkIndex maxRetries maxRetries acks 0 (by omega) h1 hfail

/-- Witness for the amended C4: three failing acks with `max_retries = 3`
and backoff `[1/2, 5/2]` give exactly three transmissions, two computed
delays, and ProtocolError. -/
theorem chunk_retry_exhaustion_witness :
    chunkRetryLoop 3 [(1 : ℚ) / 2, 5 / 2] 0 [errorAck, errorAck, errorAck] 0
      = { attempts := 3,
          delays := (List.range' 1 2).map (retryDelay [(1 : ℚ) / 2, 5 / 2]),
          success := false } :=
  chunk_retry_exhaustion 3 [(1 : ℚ) / 2, 5 / 2] 0 [errorAck, errorAck, errorAck]
    (by decide) (by decide)

/-! ## send_file's whole-file hash vs keymesh.hash_policy -/

/-- Sequential `handle.read(chunk_size)` until an empty read: the list of
chunks a read loop sees.  (A zero chunk size never terminates in the
source; it is mapped to no chunks, and every claim assumes a positive
chunk size.) -/
def readChunks (chunkSize : Nat) (l : List Nat) : List (List Nat) :=
  match chunkSize, l with
  | _, [] => []
  | 0, _ :: _ => []
  | cs + 1, x :: xs => (x :: xs).take (cs + 1) :: readChunks (cs + 1) ((x :: xs).drop (cs + 1))
termination_by l.length
decreasing_by simp [List.length_drop]; omega

/-- Reading in chunks and concatenating the chunks returns the file
contents. -/
lemma readChunks_join (chunkSize : Nat) (l : List Nat) (h : 0 < chunkSize) :
    (readChunks chunkSize l).flatten = l := by
  match chunkSize, l with
  | cs + 1, [] =>
    rw [readChunks]
    rfl
  | cs + 1, x :: xs =>
    rw [readChunks, List.flatten_cons,
      readChunks_join (cs + 1) ((x :: xs).drop (cs + 1)) (Nat.succ_pos cs)]
    exact List.take_append_drop (cs + 1) (x :: xs)
termination_by l.length
decreasing_by simp [List.length_drop]; omega

/-- A nonempty file yields at least one chunk. -/
lemma readChunks_ne_nil (chunkSize : Nat) (l : List Nat) (hcs : 0 < chunkSize)
    (hl : l ≠ []) : readChunks chunkSize l ≠ [] := by
  cases chunkSize with
  | zero => omega
  | succ cs =>
    cases l with
    | nil => exact absurd rfl hl
    | cons x xs =>
      rw [readChunks]
      exact List.cons_ne_nil _ _

/-- hash_policy._HASH_SALT: the 17 bytes of "KeyMesh::hash::v1". -/
def _HASH_SALT : List Nat :=
  [75, 101, 121, 77, 101, 115, 104, 58, 58, 104, 97, 115, 104, 58, 58, 118, 49]

/-- hash_policy._READ_CHUNK_SIZE: 4 MiB. -/
def _READ_CHUNK_SIZE : Nat := 4 * 1024 * 1024

/-- The byte stream digested by hash_policy.compute_file_hash in full
mode: `_update_with_salt` feeds the salt before every chunk
(hash_policy.py lines 30-35 and 66-68). -/
def compute_file_hash_stream (contents : List Nat) : List Nat :=
  ((readChunks _READ_CHUNK_SIZE contents).map (fun c => _HASH_SALT ++ c)).flatten

/-- The byte stream digested by send_file's up-front whole-file checksum
loop (protocol.py lines 92-100): the plain chunks, no salt. -/
def send_file_hash_stream (chunkSize : Nat) (contents : List Nat) : List Nat :=
  (readChunks chunkSize contents).flatten

/-- Interleaving the salt before every chunk lengthens the stream by 17
bytes per chunk. -/
lemma salted_join_length (chunks : List (List Nat)) :
    ((chunks.map (fun c => _HASH_SALT ++ c)).flatten).length
      = 17 * chunks.length + (chunks.flatten).length := by
  induction chunks with
  | nil => rfl
  | cons c cs ih =>
    simp only [List.map_cons, List.flatten_cons, List.length_append, ih, List.length_cons]
    have hsalt : _HASH_SALT.length = 17 := rfl
    rw [hsalt]
    ring

/-- The CHUNK frames of send_file's main loop, one per remaining chunk,
ids and offsets advancing from the effective start. -/
def sendChunkFrames (H : List Nat → String) (file share : String) :
    List (List Nat) → Nat → Nat → List TFrame
  | [], _, _ => []
  | d :: rest, chunkIndex, sentBytes =>
    TFrame.chunk file share chunkIndex sentBytes d.length ("sha256:" ++ H d) d
      :: sendChunkFrames H file share rest (chunkIndex + 1) (sentBytes + d.length)

/-- protocol.send_file (protocol.py lines 48-230) modelled as the frame
sequence it writes when every chunk is acknowledged ok: the whole-file
hash is digested up front from the entire contents, then FILE_REQ
carrying that hash, the CHUNK frames from the effective start offset
`max(resume_offset, remote_resume)`, and FILE_END carrying the same
hash. -/
def send_file_frames (H : List Nat → String) (chunkSize : Nat) (contents : List Nat)
    (share relPath : String) (resumeOffset remoteResume : Nat) : List TFrame :=
  let totalSize := contents.length
  let totalHash := "sha256:" ++ H (send_file_hash_stream chunkSize contents)
  let startOffset := max resumeOffset remoteResume
  TFrame.fileReq relPath share totalSize "push" resumeOffset totalHash
    :: (sendChunkFrames H relPath share (readChunks chunkSize (contents.drop startOffset))
          (startOffset / chunkSize) startOffset
        ++ [TFrame.fileEnd relPath share totalHash totalSize])

/-- C10: the hash carried in FILE_REQ and FILE_END is
`"sha256:" ++ digest(entire file contents)` — digested before any data
frame, and the same expression for every `resume_offset` — and the byte
stream it digests differs from the salt-interleaved stream digested by
the hashing-policy module (so it is the plain, unsalted digest). -/
theorem send_file_unsalted_whole_hash (H : List Nat → String) (chunkSize : Nat)
    (contents : List Nat) (share relPath : String) (resumeOffset remoteResume : Nat)
    (hcs : 0 < chunkSize) (hne : contents ≠ []) :
    (send_file_frames H chunkSize contents share relPath resumeOffset remoteResume).head?
      = some (TFrame.fileReq relPath share contents.length "push" resumeOffset
          ("sha256:" ++ H contents))
  ∧ (send_file_frames H chunkSize contents share relPath resumeOffset remoteResume).getLast?
      = some (TFrame.fileEnd relPath share ("sha256:" ++ H contents) contents.length)
  ∧ compute_file_hash_stream contents ≠ contents := by
  have hjoin : send_file_hash_stream chunkSize contents = contents :=
    readChunks_join chunkSize contents hcs
  refine ⟨?_, ?_, ?_⟩
  · simp [send_file_frames, hjoin]
  · simp only [send_file_frames, hjoin]
    rw [← List.cons_append, List.getLast?_concat]
  · have hk : readChunks _READ_CHUNK_SIZE contents ≠ [] :=
      readChunks_ne_nil _READ_CHUNK_SIZE contents (by decide) hne
    have hkpos : 0 < (readChunks _READ_CHUNK_SIZE contents).length :=
      List.length_pos.mpr hk
    have hj : (readChunks _READ_CHUNK_SIZE contents).flatten = contents :=
      readChunks_join _READ_CHUNK_SIZE contents (by decide)
    have hlens := salted_join_length (readChunks _READ_CHUNK_SIZE contents)
    rw [hj] at hlens
    intro heq
    have hlen := congrArg List.length heq
    rw [compute_file_hash_stream] at hlen
    omega

/-- Witness for C10 at chunk size 2 and contents [1, 2, 3]. -/
theorem send_file_unsalted_whole_hash_witness :
    (send_file_frames toyDigest 2 [1, 2, 3] "docs" "a.bin" 0 0).head?
      = some (TFrame.fileReq "a.bin" "docs" 3 "push" 0 ("sha256:" ++ toyDigest [1, 2, 3]))
  ∧ (send_file_frames toyDigest 2 [1, 2, 3] "docs" "a.bin" 0 0).getLast?
      = some (TFrame.fileEnd "a.bin" "docs" ("sha256:" ++ toyDigest [1, 2, 3]) 3)
  ∧ compute_file_hash_stream [1, 2, 3] ≠ [1, 2, 3] :=
  send_file_unsalted_whole_hash toyDigest 2 [1, 2, 3] "docs" "a.bin" 0 0 (by decide)
    (by decide)

/-! ## keymesh.net.client: per-peer reconnect backoff -/

/-- One iteration of ClientConnector._maintain_peer per connection
outcome (`true` = _connect_once returned, `false` = it raised): a success
resets `attempt` to 0 (only a constant 1 s pause follows, recorded as
`none`); a failure sleeps `backoff[min(attempt, len(backoff) - 1)]`
computed from the pre-increment `attempt`, which is then incremented
(client.py lines 55-69). -/
def maintainRun (backoff : List ℚ) (attempt : Nat) : List Bool → List (Option ℚ)
  | [] => []
  | o :: os =>
    if o then none :: maintainRun backoff 0 os
    else some (backoff.getD (min attempt (backoff.length - 1)) 0)
           :: maintainRun backoff (attempt + 1) os

/-- The `attempt` counter after a history of outcomes, from a given
start. -/
def attemptFold (start : Nat) (history : List Bool) : Nat :=
  history.foldl (fun a o => if o then 0 else a + 1) start

/-- Length of the trailing run of failures in a history. -/
def trailingFailures (history : List Bool) : Nat :=
  (history.reverse.takeWhile (fun o => !o)).length

lemma maintainRun_append (backoff : List ℚ) (a : Nat) (xs ys : List Bool) :
    maintainRun backoff a (xs ++ ys)
      = maintainRun backoff a xs ++ maintainRun backoff (attemptFold a xs) ys := by
  induction xs generalizing a with
  | nil => rfl
  | cons o os ih => cases o <;> simp [maintainRun, attemptFold, ih]

lemma maintainRun_length (backoff : List ℚ) (a : Nat) (xs : List Bool) :
    (maintainRun backoff a xs).length = xs.length := by
  induction xs generalizing a with
  | nil => rfl
  | cons o os ih => cases o <;> simp [maintainRun, ih]

lemma attemptFold_reverse (r : List Bool) :
    attemptFold 0 r.reverse = (r.takeWhile (fun o => !o)).length := by
  induction r with
  | nil => rfl
  | cons o r ih =>
    cases o with
    | false =>
      simp [attemptFold, List.reverse_cons, List.foldl_append, List.takeWhile_cons]
      simpa [attemptFold] using ih
    | true =>
      simp [attemptFold, List.reverse_cons, List.foldl_append, List.takeWhile_cons]

/-- The `attempt` counter equals the length of the trailing failure
run. -/
lemma attemptFold_trailing (history : List Bool) :
    attemptFold 0 history = trailingFailures history := by
  have h := attemptFold_reverse history.reverse
  rw [List.reverse_reverse] at h
  rw [h]
  rfl

/-- C7: in `_maintain_peer`, a failure that follows `trailingFailures
pre` consecutive failures — i.e. the (n := trailingFailures pre + 1)-th
consecutive failure — sleeps `backoff[min(n - 1, len - 1)]`, and after a
success the counter is reset so the next failure sleeps `backoff[0]`
again. -/
theorem maintain_peer_backoff_schedule (backoff : List ℚ) (pre suf : List Bool)
    (hne : backoff ≠ []) :
    (maintainRun backoff 0 (pre ++ false :: suf))[pre.length]?
      = some (some (backoff.getD (min (trailingFailures pre) (backoff.length - 1)) 0))
  ∧ (maintainRun backoff 0 (pre ++ true :: false :: suf))[pre.length + 1]?
      = some (some (backoff.getD 0 0)) := by
  have _ := hne
  constructor
  · rw [maintainRun_append backoff 0 pre (false :: suf)]
    rw [List.getElem?_append_right (le_of_eq (maintainRun_length backoff 0 pre))]
    rw [maintainRun_length backoff 0 pre, Nat.sub_self, attemptFold_trailing]
    simp [maintainRun]
  · rw [maintainRun_append backoff 0 pre (true :: false :: suf)]
    rw [List.getElem?_append_right (by rw [maintainRun_length]; omega)]
    rw [maintainRun_length backoff 0 pre]
    have hidx : pre.length + 1 - pre.length = 1 := by omega
    rw [hidx]
    simp [maintainRun]

/-- Witness for C7 with backoff [1, 3, 10, 30] after two consecutive
failures: the third failure sleeps backoff[2] = 10, and a failure right
after a success sleeps backoff[0] = 1. -/
theorem maintain_peer_backoff_schedule_witness :
    (maintainRun [(1 : ℚ), 3, 10, 30] 0 ([false, false] ++ false :: []))[([false, false] : List Bool).length]?
      = some (some ([(1 : ℚ), 3, 10, 30].getD
          (min (trailingFailures [false, false]) ([(1 : ℚ), 3, 10, 30].length - 1)) 0))
  ∧ (maintainRun [(1 : ℚ), 3, 10, 30] 0 ([false, false] ++ true :: false :: []))[([false, false] : List Bool).length + 1]?
      = some (some ([(1 : ℚ), 3, 10, 30].getD 0 0)) :=
  maintain_peer_backoff_schedule [(1 : ℚ), 3, 10, 30] [false, false] [] (by decide)

/-! ## keymesh.net.conn_state.PeerInfo -/

/-- The mutable fields of conn_state.PeerInfo together with the state of
its asyncio.Event (`_handshake_event.is_set()`). -/
structure PeerInfoState where
  connected : Bool
  lastError : Option String
  lastHelloTs : Option ℚ
  lastAckTs : Option ℚ
  lastHeartbeatTs : Option ℚ
  fingerprint : Option String
  allowedShares : List String
  remoteCapabilities : Option (List (String × String))
  handshakeSet : Bool
deriving DecidableEq, Repr

/-- The operations PeerInfo exposes (conn_state.py lines 31-92).
`wait_handshake` does not mutate and is characterised separately;
`to_dict` takes the lock but only reads. -/
inductive PeerOp where
  | markHandshake (helloTs ackTs : ℚ) (fp : String) (shares : List String)
      (caps : List (String × String))
  | markHeartbeat (ts : ℚ)
  | markError (msg : String)
  | markDisconnected
  | toDict
deriving DecidableEq, Repr

/-- Effect of one operation on the state; each runs under the per-peer
lock, so a trace of operations is a sequence of atomic updates. -/
def applyOp (s : PeerInfoState) : PeerOp → PeerInfoState
  | .markHandshake helloTs ackTs fp shares caps =>
      { s with connected := true, lastError := none, lastHelloTs := some helloTs,
               lastAckTs := some ackTs, lastHeartbeatTs := some ackTs,
               fingerprint := some fp, allowedShares := shares,
               remoteCapabilities := some caps, handshakeSet := true }
  | .markHeartbeat ts => { s with lastHeartbeatTs := some ts }
  | .markError msg => { s with lastError := some msg, connected := false }
  | .markDisconnected => { s with connected := false }
  | .toDict => s

/-- A trace of operations applied in order. -/
def applyOps (s : PeerInfoState) (ops : List PeerOp) : PeerInfoState :=
  ops.foldl applyOp s

lemma applyOp_handshake_mono (s : PeerInfoState) (op : PeerOp)
    (h : s.handshakeSet = true) : (applyOp s op).handshakeSet = true := by
  cases op with
  | markHandshake helloTs ackTs fp shares caps => rfl
  | markHeartbeat ts => exact h
  | markError msg => exact h
  | markDisconnected => exact h
  | toDict => exact h

lemma applyOps_handshake_mono (ops : List PeerOp) :
    ∀ s : PeerInfoState, s.handshakeSet = true → (applyOps s ops).handshakeSet = true := by
  induction ops with
  | nil => intro s h; exact h
  | cons op ops ih => intro s h; exact ih (applyOp s op) (applyOp_handshake_mono s op h)

/-- Number of unset-to-set transitions of the latch along a trace. -/
def riseCount (s : PeerInfoState) : List PeerOp → Nat
  | [] => 0
  | op :: ops =>
    (if s.handshakeSet = false ∧ (applyOp s op).handshakeSet = true then 1 else 0)
      + riseCount (applyOp s op) ops

lemma riseCount_of_set (ops : List PeerOp) :
    ∀ s : PeerInfoState, s.handshakeSet = true → riseCount s ops = 0 := by
  induction ops with
  | nil => intro s _; rfl
  | cons op ops ih =>
    intro s h
    have hind : ¬ (s.handshakeSet = false ∧ (applyOp s op).handshakeSet = true) := by
      rintro ⟨hf, _⟩
      rw [h] at hf
      cases hf
    simp [riseCount, hind, ih (applyOp s op) (applyOp_handshake_mono s op h)]

lemma riseCount_le_one (ops : List PeerOp) :
    ∀ s : PeerInfoState, riseCount s ops ≤ 1 := by
  induction ops with
  | nil => intro s; exact Nat.zero_le 1
  | cons op ops ih =>
    intro s
    by_cases hs : (applyOp s op).handshakeSet = true
    · have h0 : riseCount (applyOp s op) ops = 0 := riseCount_of_set ops _ hs
      simp only [riseCount, h0]
      split <;> omega
    · have hind : ¬ (s.handshakeSet = false ∧ (applyOp s op).handshakeSet = true) := by
        rintro ⟨_, ht⟩
        exact hs ht
      simp only [riseCount, hind, if_false]
      simpa using ih (applyOp s op)

/-- C8: after `mark_handshake`, no trace of further operations
(heartbeats, errors, disconnects, snapshots, or repeated handshakes) ever
clears the latch — so every `wait_handshake`, started before or after,
observes it set and completes — and along any trace from any state the
latch transitions from unset to set at most once. -/
theorem peer_handshake_latch_once (s : PeerInfoState) (ops tail : List PeerOp)
    (helloTs ackTs : ℚ) (fp : String) (shares : List String)
    (caps : List (String × String)) :
    (applyOps (applyOp s (PeerOp.markHandshake helloTs ackTs fp shares caps)) ops).handshakeSet
      = true
  ∧ riseCount s tail ≤ 1 :=
  ⟨applyOps_handshake_mono ops _ rfl, riseCount_le_one tail s⟩

/-! ## keymesh.utils.pathing -/

/-- A POSIX-style path: absolute flag plus components. -/
structure PPath where
  absolute : Bool
  comps : List String
deriving DecidableEq, Repr

/-- Path.expanduser: a leading "~" component of a relative path is
replaced by the home directory. -/
def expanduser (home : PPath) (p : PPath) : PPath :=
  if p.absolute = false ∧ p.comps.head? = some "~" then
    { absolute := home.absolute, comps := home.comps ++ p.comps.tail }
  else p

/-- Lexical normalization underlying Path.resolve: "." is dropped, ".."
removes the previous component (and is dropped at the root); symbolic
links are not modelled. -/
def resolveComps (comps : List String) : List String :=
  comps.foldl (fun acc c =>
    if c = "." then acc
    else if c = ".." then acc.dropLast
    else acc ++ [c]) []

/-- Path.resolve: relative paths are anchored at the working directory
`cwd`, then normalized to an absolute path. -/
def presolve (cwd : List String) (p : PPath) : PPath :=
  { absolute := true,
    comps := resolveComps (if p.absolute then p.comps else cwd ++ p.comps) }

/-- The `/` join of a base with a candidate. -/
def pjoin (base rel : PPath) : PPath :=
  if rel.absolute then rel
  else { absolute := base.absolute, comps := base.comps ++ rel.comps }

/-- pathing.normalize_path (pathing.py lines 8-15). -/
def normalize_path (home : PPath) (cwd : List String) (base p : PPath) : PPath :=
  let basePath := presolve cwd (expanduser home base)
  let candidate := expanduser home p
  if candidate.absolute then presolve cwd candidate
  else presolve cwd (pjoin basePath candidate)

/-- `target.relative_to(base_path)` succeeds iff the resolved base's
components lead the target's. -/
def isRelativeTo (target base : PPath) : Bool :=
  base.comps.isPrefixOf target.comps && (target.absolute == base.absolute)

/-- pathing.ensure_within (pathing.py lines 18-29): an absolute candidate
(after ~ expansion) is returned resolved with no containment check; a
relative candidate must resolve under the base or ValueError is
raised. -/
def ensure_within (home : PPath) (cwd : List String) (base p : PPath) :
    Except String PPath :=
  let basePath := presolve cwd (expanduser home base)
  let candidate := expanduser home p
  let target := normalize_path home cwd basePath candidate
  if candidate.absolute then .ok target
  else if isRelativeTo target basePath then .ok target
  else .error "path escapes base"

lemma expanduser_of_absolute (home : PPath) (p : PPath) (h : p.absolute = true) :
    expanduser home p = p := by
  rw [expanduser, if_neg]
  rintro ⟨hf, _⟩
  rw [h] at hf
  cases hf

/-- C9: for every input whose ~-expansion is absolute, `ensure_within`
returns the resolved input path unchanged and performs no containment
check — even when that path lies outside the base — and the escape
ValueError can only arise for an input that is relative after
expansion. -/
theorem ensure_within_absolute_bypass (home : PPath) (cwd : List String)
    (base p base₂ p₂ : PPath) (e : String)
    (habs : (expanduser home p).absolute = true) :
    ensure_within home cwd base p = .ok (presolve cwd (expanduser home p))
  ∧ (ensure_within home cwd base₂ p₂ = .error e → (expanduser home p₂).absolute = false) := by
  constructor
  · simp only [ensure_within, normalize_path]
    rw [expanduser_of_absolute home (expanduser home p) habs]
    simp [habs]
  · intro herr
    by_contra hne
    have habs₂ : (expanduser home p₂).absolute = true := by
      cases h2 : (expanduser home p₂).absolute
      · exact absurd h2 hne
      · rfl
    have hok : ensure_within home cwd base₂ p₂ = .ok (presolve cwd (expanduser home p₂)) := by
      simp only [ensure_within, normalize_path]
      rw [expanduser_of_absolute home (expanduser home p₂) habs₂]
      simp [habs₂]
    rw [hok] at herr
    cases herr

/-- Witness for C9: with base /srv/share, the absolute input /etc/passwd
is returned as-is although it lies outside the base; the error case for
the relative input ../../x only certifies that that input is
relative. -/
theorem ensure_within_absolute_bypass_witness :
    ensure_within ⟨true, ["home", "u"]⟩ ["cwd"] ⟨true, ["srv", "share"]⟩ ⟨true, ["etc", "passwd"]⟩
      = .ok (presolve ["cwd"] (expanduser ⟨true, ["home", "u"]⟩ ⟨true, ["etc", "passwd"]⟩))
  ∧ (ensure_within ⟨true, ["home", "u"]⟩ ["cwd"] ⟨true, ["srv", "share"]⟩ ⟨false, ["..", "..", "x"]⟩
        = .error "path escapes base"
      → (expanduser ⟨true, ["home", "u"]⟩ ⟨false, ["..", "..", "x"]⟩).absolute = false) :=
  ensure_within_absolute_bypass ⟨true, ["home", "u"]⟩ ["cwd"] ⟨true, ["srv", "share"]⟩
    ⟨true, ["etc", "passwd"]⟩ ⟨true, ["srv", "share"]⟩ ⟨false, ["..", "..", "x"]⟩
    "path escapes base" (by decide)

end KeyMesh
